import Mathlib

/-!
Shallow embedding of `dcos_ovhcloud_installer.py` (DC/OS on OVH Cloud
installer).  Python methods become Lean functions; the provider's HTTP API,
the SSH reachability probe and subprocess exit codes become explicit oracle
functions; exceptions become `Except`.  Each definition is translated from
the source file, keeping the source's names where Lean allows it.
-/

namespace DcosOvh

/-! ### Cloud API Gateway: `class OVHClient(ovh.Client)`

`OVHClient` wraps `get` and `delete` with `@retry(stop_max_attempt_number=3)`
from the `retrying` package (default settings: retry on *any* exception, no
result filter), while `post` is inherited from `ovh.Client` unwrapped.
An underlying call is an oracle `Nat → Except ApiErr α`: attempt `i` either
returns a value or raises an error of some kind. -/

/-- Kinds of errors an underlying `ovh.Client` call can raise: a permanent
4xx validation error or a transient failure (network error, 5xx, rate
limiting). `retrying` with default settings does not distinguish them. -/
inductive ApiErr where
  | client4xx
  | transient
deriving DecidableEq

/-- Semantics of `@retry(stop_max_attempt_number=n)` applied to an underlying
call: attempt `i`, and on any exception retry (up to `n` attempts total),
re-raising the last exception once attempts are exhausted.  Returns the
number of attempts actually made together with the final outcome.
Called with `n ≥ 1`; the `0` case is out of the decorator's domain. -/
def retryCall {α : Type} (oracle : Nat → Except ApiErr α) (i : Nat) :
    Nat → Nat × Except ApiErr α
  | 0 => (0, oracle i)
  | n + 1 =>
    match oracle i with
    | Except.ok a => (1, Except.ok a)
    | Except.error e =>
      if n = 0 then (1, Except.error e)
      else
        let p := retryCall oracle (i + 1) n
        (p.1 + 1, p.2)

/-- `OVHClient.get`: `@retry(stop_max_attempt_number=3)` over `super().get`. -/
def ovh_get {α : Type} (oracle : Nat → Except ApiErr α) : Nat × Except ApiErr α :=
  retryCall oracle 0 3

/-- `OVHClient.delete`: `@retry(stop_max_attempt_number=3)` over `super().delete`. -/
def ovh_delete {α : Type} (oracle : Nat → Except ApiErr α) : Nat × Except ApiErr α :=
  retryCall oracle 0 3

/-- `post` on `OVHClient`: inherited unchanged from `ovh.Client`, so a single
attempt whose outcome is the underlying call's outcome. -/
def ovh_post {α : Type} (oracle : Nat → Except ApiErr α) : Nat × Except ApiErr α :=
  (1, oracle 0)

/-! ### Resource Catalog: the `flavors` property of `OVHInstances`

`self._flavors` is a dict of dicts `region → name → id`, populated on first
access when `len(self._flavors) == 0` by one full-listing `GET
/cloud/project/{id}/flavor`, keeping only flavors with `osType == 'linux'`.
Python dicts are modelled as association lists with insertion-order
semantics (assignment to an existing key updates in place, a new key is
appended). -/

/-- One entry of the provider's flavor listing. -/
structure Flavor where
  region : String
  name : String
  id : String
  osType : String
deriving DecidableEq

/-- Python dict assignment `d[k] = v` on an association list. -/
def insertAssoc {β : Type} (k : String) (v : β) :
    List (String × β) → List (String × β)
  | [] => [(k, v)]
  | (k1, v1) :: rest =>
    if k1 = k then (k1, v) :: rest else (k1, v1) :: insertAssoc k v rest

/-- Python dict lookup `d[k]`, `none` modelling `KeyError`. -/
def lookupAssoc {β : Type} (k : String) : List (String × β) → Option β
  | [] => none
  | (k1, v1) :: rest => if k1 = k then some v1 else lookupAssoc k rest

/-- The region → name → id mapping held in `self._flavors`. -/
def FlavorMap : Type := List (String × List (String × String))

/-- The `for flavor in self.ovh.get(...)` population loop of the `flavors`
property: linux flavors are indexed by region then name. -/
def populateFlavors (listing : List Flavor) : FlavorMap :=
  listing.foldl
    (fun m f =>
      if f.osType = "linux" then
        let inner := (lookupAssoc f.region m).getD []
        insertAssoc f.region (insertAssoc f.name f.id inner) m
      else m)
    []

/-- The memoization state of the `flavors` category: the backing dict and a
count of underlying full-listing fetches issued so far. -/
structure CatalogState where
  flavors : FlavorMap
  fetches : Nat

/-- The `flavors` property getter: fetch and populate only when
`len(self._flavors) == 0`, then return the backing dict. -/
def flavorsGet (listing : List Flavor) (st : CatalogState) :
    FlavorMap × CatalogState :=
  if st.flavors.length = 0 then
    let m := populateFlavors listing
    (m, ⟨m, st.fetches + 1⟩)
  else (st.flavors, st)

/-- A flavor-id lookup `self.flavors[region][flavor]` (as in
`create_instance`): access the property, then index twice; `none` models
`KeyError`. -/
def flavor_id (listing : List Flavor) (st : CatalogState)
    (region flavorName : String) : Option String × CatalogState :=
  let (m, st1) := flavorsGet listing st
  ((lookupAssoc region m).bind (fun inner => lookupAssoc flavorName inner), st1)

/-- A sequence of flavor-id lookups threaded through the memoization state. -/
def runFlavorLookups (listing : List Flavor) :
    List (String × String) → CatalogState → CatalogState
  | [], st => st
  | q :: qs, st => runFlavorLookups listing qs (flavor_id listing st q.1 q.2).2

/-! ### Instance Provisioner: `OVHInstances`

`self.instances` is a list of dicts each holding an `'id'` and, once the
instance is reachable, an `'ip'`.  The provider side is an oracle
environment: `bulk` is the bulk-create endpoint's returned id list (indexed
by a call counter), `status` is the per-pass per-instance status response of
`GET .../instance/{id}` folded together with the port-22 TCP probe, and
`deleteOk` is the net outcome of `cleanup_instance` (the `DELETE` call after
the gateway's own retries: `false` means it raised). -/

/-- One entry of `self.instances`: `{'id': ..., 'ip': ...?}`. -/
structure Inst where
  id : Nat
  ip : Option String
deriving DecidableEq

/-- The status response observed for a polled instance, with the ACTIVE case
carrying the first address of `ipAddresses` and the result of the
`sock.connect_ex((ip, 22)) == 0` probe. -/
inductive InstStatus where
  | build
  | active (ip : String) (sshOk : Bool)
  | error
  | other (s : String)
deriving DecidableEq

/-- `true` exactly on the `else` branch of the status dispatch
(`Instance ... has an unexpected status ...`). -/
def statusIsOther : InstStatus → Bool
  | InstStatus.other _ => true
  | _ => false

/-- Provider-side oracle environment for a provisioning run. -/
structure ProvEnv where
  bulk : Nat → Nat → List Nat
  status : Nat → Nat → InstStatus
  deleteOk : Nat → Bool

/-- `create_instance(...)`: one bulk-create `POST` for `num` instances; the
response rows become fresh working-set entries `{'id': i['id']}` (no ip).
`c` is the position of this call in the run's sequence of bulk calls. -/
def create_instance (env : ProvEnv) (c : Nat) (num : Nat) : List Inst :=
  (env.bulk c num).map (fun i => ⟨i, none⟩)

/-- `cleanup_instance(instance_id)`: `self.ovh.delete(...)` on the instance;
`false` models the call raising after the gateway's retries. -/
def cleanup_instance (env : ProvEnv) (iid : Nat) : Bool :=
  env.deleteOk iid

/-- `recover_instance_error(...)`: `del` the first working-set entry whose id
matches (always before anything else), then `cleanup_instance`, then extend
the working set with one `create_instance` call for a single instance.  A
`cleanup_instance` failure propagates out (`Except.error`), carrying the
working set as mutated so far — the errored entry already removed, no
replacement added. -/
def recover_instance_error (env : ProvEnv) (c : Nat) (l : List Inst)
    (iid : Nat) : Except (List Inst) (List Inst) :=
  let l1 := l.eraseP (fun d => d.id == iid)
  if cleanup_instance env iid then Except.ok (l1 ++ create_instance env c 1)
  else Except.error l1

/-- One pass of the polling `for` loop in `create_instances`, processing the
instances in order.  `processed` is the already-visited prefix (with any
`instance['ip'] = ip` mutations applied), `rest` the remainder, `wait` the
flag accumulated so far, `p` the pass index, `c` the bulk-call counter.
Entries that already have an ip are skipped by the generator filter
`'ip' not in i`.  BUILD and ACTIVE-without-ssh set `wait`; ACTIVE with a
successful probe stores the ip; ERROR runs recovery on the full current
list, sets `wait` and `break`s out of the pass; any other status only logs
— it leaves `wait` untouched.  Returns the new working set, the final wait
flag and the new bulk-call counter, or the aborted state when recovery
raised. -/
def passAux (env : ProvEnv) (p c : Nat) (processed : List Inst) :
    List Inst → Bool → Except (List Inst) (List Inst × Bool × Nat)
  | [], wait => Except.ok (processed, wait, c)
  | inst :: rest, wait =>
    if inst.ip.isSome then passAux env p c (processed ++ [inst]) rest wait
    else
      match env.status p inst.id with
      | InstStatus.build => passAux env p c (processed ++ [inst]) rest true
      | InstStatus.active ip sshOk =>
        if sshOk then
          passAux env p c (processed ++ [⟨inst.id, some ip⟩]) rest wait
        else passAux env p c (processed ++ [inst]) rest true
      | InstStatus.error =>
        match recover_instance_error env c (processed ++ inst :: rest) inst.id with
        | Except.ok l1 => Except.ok (l1, true, c + 1)
        | Except.error crashed => Except.error crashed
      | InstStatus.other _ => passAux env p c (processed ++ [inst]) rest wait

/-- Outcome of the `while wait:` polling loop.  `trace` lists the working
set after each completed pass; `final` is the working set when the loop
stops (or the aborted state); `ok` is `false` when recovery's delete raised
(the exception propagates out of `create_instances`); `finished` is `true`
only when the loop exited because a full pass left `wait` false. -/
structure LoopOut where
  trace : List (List Inst)
  final : List Inst
  ok : Bool
  finished : Bool
deriving DecidableEq

/-- The `while wait:` loop of `create_instances`: each iteration sleeps,
clears `wait` and runs one pass; fuel bounds the number of passes modelled
(the source loop has no overall timeout). -/
def pollLoop (env : ProvEnv) (p c : Nat) (l : List Inst) :
    Nat → LoopOut
  | 0 => ⟨[], l, true, false⟩
  | fuel + 1 =>
    match passAux env p c [] l false with
    | Except.error crashed => ⟨[], crashed, false, false⟩
    | Except.ok (l1, wait, c1) =>
      if wait then
        let out := pollLoop env (p + 1) c1 l1 fuel
        ⟨l1 :: out.trace, out.final, out.ok, out.finished⟩
      else ⟨[l1], l1, true, true⟩

/-- `create_instances()`: one bulk `create_instance` call for
`masters + agents` instances extending the (empty) working set, followed by
the polling loop.  Returns the initial working set and the loop outcome. -/
def create_instances (env : ProvEnv) (masters agents fuel : Nat) :
    List Inst × LoopOut :=
  let init := create_instance env 0 (masters + agents)
  (init, pollLoop env 0 1 init fuel)

/-! ### `DCOSInstall.write_config`

`master_list` is the Python slice `ips[:masters]` and `agent_list` the slice
`ips[-agents:]` of the instances' ip list.  Slice semantics for
non-negative counts: `[:m]` takes the first `min m len` elements;
`[-a:]` with `a ≥ 1` is the suffix of length `min a len`, while `[-0:]`
is `[0:]`, the whole list. -/

/-- The Python slice `l[:m]` for `m ≥ 0`. -/
def pySliceTo {α : Type} (m : Nat) (l : List α) : List α :=
  l.take m

/-- The Python slice `l[-a:]` for `a ≥ 0`: for `a = 0` the start index
`-0 = 0` denotes the whole list; otherwise the suffix of length
`min a l.length`. -/
def pySliceFromNeg {α : Type} (a : Nat) (l : List α) : List α :=
  if a = 0 then l else l.drop (l.length - a)

/-- The parts of the generated `genconf/config.yaml` that `write_config`
computes from its inputs. -/
structure DcosConfig where
  master_list : List String
  agent_list : List String
  ssh_user : String
deriving DecidableEq

/-- `write_config()`: `master_list = [i['ip'] for i in instances][:masters]`,
`agent_list = [i['ip'] for i in instances][-agents:]`, `ssh_user = user`.
`ips` is the list `[i['ip'] for i in instances]`. -/
def write_config (ips : List String) (masters agents : Nat)
    (user : String) : DcosConfig :=
  ⟨pySliceTo masters ips, pySliceFromNeg agents ips, user⟩

/-! ### `DCOSInstall.system_prep`

For each instance ip, an ssh command disabling the firewall is run through
`stream_cmd`; `retries = 3`, and a `ValueError` (non-zero exit) decrements
`retries`, logs and sleeps 10 seconds — including after the third failure,
since the sleep follows every failed attempt.  The per-host outcome oracle
`ok host attempt` is the exit-code-zero predicate of `stream_cmd` for that
host's attempt number. -/

/-- What one host's preparation did: how many attempts were made, whether
one succeeded, and how many 10-second sleeps were taken (one after each
failed attempt). -/
structure PrepResult where
  attempts : Nat
  success : Bool
  sleeps : Nat
deriving DecidableEq

/-- The `while retries > 0 and not success:` loop for one host, with
`attemptIdx` the number of attempts already made and `retries` the counter
started at 3. -/
def prepHostAux (ok : Nat → Bool) : Nat → Nat → PrepResult
  | _, 0 => ⟨0, false, 0⟩
  | attemptIdx, retries + 1 =>
    if ok attemptIdx then ⟨1, true, 0⟩
    else
      let r := prepHostAux ok (attemptIdx + 1) retries
      ⟨r.attempts + 1, r.success, r.sleeps + 1⟩

/-- One host's preparation: the retry loop entered with `retries = 3`. -/
def prepHost (ok : Nat → Bool) : PrepResult :=
  prepHostAux ok 0 3

/-- `system_prep()`: the `for i in self.oi.instances:` loop — every host is
processed, each with its own independent retry loop; a host exhausting its
retries only logs and the loop moves on. -/
def system_prep (ok : String → Nat → Bool) (hosts : List String) :
    List (String × PrepResult) :=
  hosts.map (fun h => (h, prepHost (ok h)))

/-! ### `DCOSInstall.install`

Five `stream_cmd` invocations of the installer, one per phase flag, inside
a single `try:`; the first `ValueError` (non-zero exit) is caught once, and
the handler calls `sys.exit(1)`.  `sys.exit` unwinds to the interpreter's
exit, where the `atexit` machinery runs every registered handler once;
`OVHInstances.__init__` registered `self.cleanup` exactly once, so cleanup
runs exactly once on that path. -/

/-- The installer's phase flags in their source order. -/
def install_phase_flags : List String :=
  ["--genconf", "--install-prereqs", "--preflight", "--deploy", "--postflight"]

/-- `atexit.register(self.cleanup)` is executed exactly once, in
`OVHInstances.__init__`; Python runs each registration once at process
exit. -/
def atexit_cleanup_registrations : Nat := 1

/-- Outcome of the `install` method: which phase indices were invoked (in
order), the failing phase if any, and how many times instance cleanup runs
when the process exits on this path. -/
structure InstallOutcome where
  executed : List Nat
  failedPhase : Option Nat
  cleanupRuns : Nat
deriving DecidableEq

/-- The sequential `stream_cmd` calls of the `try:` block, starting at phase
`i` with `n` phases remaining; stops at the first failing phase. -/
def runPhasesAux (ok : Nat → Bool) : Nat → Nat → List Nat × Option Nat
  | _, 0 => ([], none)
  | i, n + 1 =>
    if ok i then
      let r := runPhasesAux ok (i + 1) n
      (i :: r.1, r.2)
    else ([i], some i)

/-- `install()`: run the five phases in order; on the first `ValueError` the
handler exits the process (cleanup then runs via the single `atexit`
registration), and on full success the process also ends up exiting once
normally later.  `ok i` is the exit-code-zero predicate of phase `i`. -/
def install (ok : Nat → Bool) : InstallOutcome :=
  let r := runPhasesAux ok 0 install_phase_flags.length
  ⟨r.1, r.2, atexit_cleanup_registrations⟩

/-! ### Sample environments used to evaluate the model at concrete inputs -/

/-- A well-behaved provider: bulk calls return the requested number of fresh
ids (`100 * call + i`), every instance builds for one pass and is then
active with reachable ssh, deletions succeed. -/
def envHealthy : ProvEnv :=
  ⟨fun c n => (List.range n).map (fun i => 100 * c + i),
   fun p _ => if p = 0 then InstStatus.build else InstStatus.active "1.2.3.4" true,
   fun _ => true⟩

/-- A provider whose status endpoint always answers with a vocabulary the
implementation does not recognize. -/
def envAllOther : ProvEnv :=
  ⟨fun _ n => List.range n,
   fun _ _ => InstStatus.other "PAUSED",
   fun _ => true⟩

/-- A provider where instance 0 reports ERROR and every deletion fails
(raises after the gateway's retries). -/
def envDelFail : ProvEnv :=
  ⟨fun c n => (List.range n).map (fun i => 100 * c + i),
   fun _ i => if i = 0 then InstStatus.error else InstStatus.build,
   fun _ => false⟩

/-! ## Theorems -/

/-! ### C4 / C10 — role assignment in `write_config` -/

/-- Claim C4 as stated is false at agents = 0: for the one-element ip list
with masters = 1, agents = 0 the size equals masters + agents, yet the
single ip lands in both `master_list` and `agent_list` (the Python slice
`[-0:]` is the whole list), so the two roles are not disjoint. -/
theorem role_partition_fails_at_zero_agents :
    (["10.0.0.1"] : List String).length = 1 + 0 ∧
    "10.0.0.1" ∈ (write_config ["10.0.0.1"] 1 0 "centos").master_list ∧
    "10.0.0.1" ∈ (write_config ["10.0.0.1"] 1 0 "centos").agent_list := by
  refine ⟨rfl, ?_, ?_⟩ <;> simp [write_config, pySliceTo, pySliceFromNeg]

/-- Claim C4 (amended): when the ip list has pairwise-distinct entries, its
size equals masters + agents and agents ≥ 1, `write_config` makes
`master_list` (the first masters ips) and `agent_list` (the last agents
ips) a partition: concatenating them recovers the whole list and no ip is
in both. -/
theorem role_partition_of_pos_agents (ips : List String) (m a : Nat)
    (user : String) (hnd : ips.Nodup) (hlen : ips.length = m + a)
    (ha : 1 ≤ a) :
    (write_config ips m a user).master_list ++
      (write_config ips m a user).agent_list = ips ∧
    ∀ x ∈ (write_config ips m a user).master_list,
      x ∉ (write_config ips m a user).agent_list := by
  have ha0 : a ≠ 0 := by omega
  have hdrop : ips.length - a = m := by omega
  have hsplit : (write_config ips m a user).master_list ++
      (write_config ips m a user).agent_list = ips := by
    simp [write_config, pySliceTo, pySliceFromNeg, ha0, hdrop]
  refine ⟨hsplit, ?_⟩
  have hnd2 : ((write_config ips m a user).master_list ++
      (write_config ips m a user).agent_list).Nodup := by
    rw [hsplit]; exact hnd
  exact List.disjoint_of_nodup_append hnd2

/-- Witness for C4: a concrete 1-master, 2-agent assignment. -/
theorem role_partition_of_pos_agents_witness :
    (write_config ["a", "b", "c"] 1 2 "centos").master_list ++
      (write_config ["a", "b", "c"] 1 2 "centos").agent_list = ["a", "b", "c"] ∧
    ¬ "a" ∈ (write_config ["a", "b", "c"] 1 2 "centos").agent_list := by
  have h := role_partition_of_pos_agents ["a", "b", "c"] 1 2 "centos"
    (by decide) (by decide) (by decide)
  exact ⟨h.1, h.2 "a" (by simp [write_config, pySliceTo])⟩

/-- Claim C10: with agents = 0 (so the requested total equals the master
count), the slice `[-0:]` denotes the whole list, so `agent_list` is every
instance ip — not the empty list — and every ip is in both `master_list`
and `agent_list`. -/
theorem zero_agents_whole_list_both_roles (ips : List String) (user : String) :
    (write_config ips ips.length 0 user).agent_list = ips ∧
    ∀ x ∈ ips, x ∈ (write_config ips ips.length 0 user).master_list ∧
      x ∈ (write_config ips ips.length 0 user).agent_list := by
  have hag : (write_config ips ips.length 0 user).agent_list = ips := by
    simp [write_config, pySliceFromNeg]
  have hma : (write_config ips ips.length 0 user).master_list = ips := by
    simp [write_config, pySliceTo]
  refine ⟨hag, fun x hx => ⟨?_, ?_⟩⟩
  · rw [hma]; exact hx
  · rw [hag]; exact hx

/-- Witness for C10 at a concrete two-ip list. -/
theorem zero_agents_whole_list_both_roles_witness :
    (write_config ["a", "b"] 2 0 "centos").agent_list = ["a", "b"] ∧
    "a" ∈ (write_config ["a", "b"] 2 0 "centos").master_list := by
  have h := zero_agents_whole_list_both_roles ["a", "b"] "centos"
  exact ⟨h.1, (h.2 "a" (by simp)).1⟩

/-! ### C5 — install phase ordering and abort -/

/-- Shifting a range-map by one: the phase indices `i..i+k` are `i`
followed by `i+1..i+1+(k-1)`. -/
theorem range_map_add_cons (i k : Nat) :
    (List.range (k + 1)).map (fun j => i + j) =
      i :: (List.range k).map (fun j => i + 1 + j) := by
  rw [List.range_succ_eq_map, List.map_cons, List.map_map]
  refine List.cons_eq_cons.mpr ⟨by omega, List.map_congr_left ?_⟩
  intro j _
  show i + (j + 1) = i + 1 + j
  omega

/-- The `try:` block of `install` stops at the first failing phase: if the
first `k` phases (from `i`) succeed and phase `i + k` fails, exactly the
phases `i, i+1, ..., i+k` run, in order. -/
theorem runPhasesAux_fail (ok : Nat → Bool) :
    ∀ (k i n : Nat), k < n → (∀ j, j < k → ok (i + j) = true) →
      ok (i + k) = false →
      runPhasesAux ok i n = ((List.range (k + 1)).map (fun j => i + j), some (i + k))
  | 0, i, 0, hk, _, _ => absurd hk (by omega)
  | 0, i, n + 1, _, _, hfail => by
    have hi : ok i = false := by simpa using hfail
    simp [runPhasesAux, hi, List.range_succ]
  | k + 1, i, 0, hk, _, _ => absurd hk (by omega)
  | k + 1, i, n + 1, hk, hprev, hfail => by
    have hi : ok i = true := by simpa using hprev 0 (by omega)
    have ih := runPhasesAux_fail ok k (i + 1) n (by omega)
      (fun j hj => by
        have := hprev (j + 1) (by omega)
        rwa [show i + (j + 1) = i + 1 + j by omega] at this)
      (by rwa [show i + (k + 1) = i + 1 + k by omega] at hfail)
    simp only [runPhasesAux, hi, if_true, ih]
    rw [range_map_add_cons i (k + 1), show i + (k + 1) = i + 1 + k by omega]

/-- Claim C5: the phases run once each in their fixed order; when the first
`k` phases succeed and phase `k` fails, exactly phases `0..k` were invoked
(none after `k`), the pipeline records the failure, and instance cleanup is
triggered exactly once (the single `atexit` registration runs at the
`sys.exit(1)` in the handler). -/
theorem install_phase_failure_aborts (ok : Nat → Bool) (k : Nat)
    (hk : k < install_phase_flags.length)
    (hprev : ∀ j, j < k → ok j = true) (hfail : ok k = false) :
    (install ok).executed = List.range (k + 1) ∧
    (install ok).failedPhase = some k ∧
    (install ok).cleanupRuns = 1 := by
  have hrun := runPhasesAux_fail ok k 0 install_phase_flags.length hk
    (fun j hj => by simpa using hprev j hj) (by simpa using hfail)
  refine ⟨?_, ?_, rfl⟩
  · simp [install, hrun]
  · simp [install, hrun]

/-- Witness for C5: the preflight phase (index 2) failing leaves exactly
phases 0, 1, 2 executed and cleanup running once. -/
theorem install_phase_failure_aborts_witness :
    (install (fun i => decide (i < 2))).executed = List.range 3 ∧
    (install (fun i => decide (i < 2))).failedPhase = some 2 ∧
    (install (fun i => decide (i < 2))).cleanupRuns = 1 :=
  install_phase_failure_aborts (fun i => decide (i < 2)) 2 (by decide)
    (fun j hj => decide_eq_true hj) (by decide)

/-! ### C6 / C7 — gateway retry behavior -/

/-- Claim C6 as stated is false: a permanent 4xx error raised by the
underlying `get` is retried — `OVHClient.get` makes 3 attempts on it, not
1, before surfacing it. -/
theorem gateway_get_retries_4xx :
    ovh_get (fun _ => (Except.error ApiErr.client4xx : Except ApiErr Nat)) =
      (3, Except.error ApiErr.client4xx) ∧ (3 : Nat) ≠ 1 :=
  ⟨rfl, by decide⟩

/-- Claim C6 (amended): `post` surfaces any underlying error immediately
(exactly one attempt, no retry), while `get` and `delete` retry every
failure — permanent 4xx errors included — making 3 attempts before
propagating the last error to the caller. -/
theorem gateway_retry_scope {α : Type} (oracle : Nat → Except ApiErr α)
    (e : ApiErr) (h : ∀ i, oracle i = Except.error e) :
    ovh_get oracle = (3, Except.error e) ∧
    ovh_delete oracle = (3, Except.error e) ∧
    ovh_post oracle = (1, Except.error e) := by
  refine ⟨?_, ?_, by simp [ovh_post, h 0]⟩ <;>
    simp [ovh_get, ovh_delete, retryCall, h]

/-- Witness for C6 at a concrete always-failing oracle. -/
theorem gateway_retry_scope_witness :
    ovh_get (fun _ => (Except.error ApiErr.client4xx : Except ApiErr String)) =
      (3, Except.error ApiErr.client4xx) ∧
    ovh_delete (fun _ => (Except.error ApiErr.client4xx : Except ApiErr String)) =
      (3, Except.error ApiErr.client4xx) ∧
    ovh_post (fun _ => (Except.error ApiErr.client4xx : Except ApiErr String)) =
      (1, Except.error ApiErr.client4xx) :=
  gateway_retry_scope _ ApiErr.client4xx (fun _ => rfl)

/-- Claim C7 as stated is false for `post`: on a transient failure `post`
is attempted exactly once — it is inherited from `ovh.Client` without the
retry decorator — not up to 3 times. -/
theorem gateway_post_single_attempt_on_transient :
    ovh_post (fun _ => (Except.error ApiErr.transient : Except ApiErr Nat)) =
      (1, Except.error ApiErr.transient) ∧ (1 : Nat) ≠ 3 :=
  ⟨rfl, by decide⟩

/-- Claim C7 (amended): `get` and `delete` are attempted up to 3 times
total — and an error is propagated only after exactly 3 attempts — while
`post` is always attempted exactly once. -/
theorem gateway_attempt_bounds {α : Type} (oracle : Nat → Except ApiErr α) :
    (ovh_get oracle).1 ≤ 3 ∧ (ovh_delete oracle).1 ≤ 3 ∧
    (ovh_post oracle).1 = 1 ∧
    (∀ e, (ovh_get oracle).2 = Except.error e → (ovh_get oracle).1 = 3) ∧
    (∀ e, (ovh_delete oracle).2 = Except.error e →
      (ovh_delete oracle).1 = 3) := by
  rcases h0 : oracle 0 with e0 | a0
  · rcases h1 : oracle 1 with e1 | a1
    · rcases h2 : oracle 2 with e2 | a2 <;>
        simp [ovh_get, ovh_delete, ovh_post, retryCall, h0, h1, h2]
    · simp [ovh_get, ovh_delete, ovh_post, retryCall, h0, h1]
  · simp [ovh_get, ovh_delete, ovh_post, retryCall, h0]

/-- Witness for C7 at a concrete always-succeeding oracle. -/
theorem gateway_attempt_bounds_witness :
    (ovh_get (fun _ => (Except.ok 0 : Except ApiErr Nat))).1 ≤ 3 ∧
    (ovh_post (fun _ => (Except.ok 0 : Except ApiErr Nat))).1 = 1 :=
  ⟨(gateway_attempt_bounds (fun _ => (Except.ok 0 : Except ApiErr Nat))).1,
   (gateway_attempt_bounds (fun _ => (Except.ok 0 : Except ApiErr Nat))).2.2.1⟩

/-! ### C8 — system_prep per-host retry -/

/-- The per-host retry loop: at least one and at most 3 attempts, one
10-second sleep after each failed attempt, and a host that never succeeds
uses all 3 attempts. -/
theorem prepHost_spec (f : Nat → Bool) :
    1 ≤ (prepHost f).attempts ∧ (prepHost f).attempts ≤ 3 ∧
    (prepHost f).sleeps =
      (if (prepHost f).success then (prepHost f).attempts - 1
       else (prepHost f).attempts) ∧
    ((prepHost f).success = false → (prepHost f).attempts = 3) := by
  by_cases h0 : f 0 = true <;> by_cases h1 : f 1 = true <;>
    by_cases h2 : f 2 = true <;>
      simp [prepHost, prepHostAux, h0, h1, h2]

/-- Claim C8: `system_prep` visits every host in order regardless of
earlier hosts' failures; each host's command is attempted at most 3 times
(at least once), with a 10-second sleep after each failed attempt, and a
host that fails all attempts has made exactly 3. -/
theorem system_prep_attempts_all_hosts (ok : String → Nat → Bool)
    (hosts : List String) :
    (system_prep ok hosts).map Prod.fst = hosts ∧
    ∀ e ∈ system_prep ok hosts,
      1 ≤ e.2.attempts ∧ e.2.attempts ≤ 3 ∧
      e.2.sleeps =
        (if e.2.success then e.2.attempts - 1 else e.2.attempts) ∧
      (e.2.success = false → e.2.attempts = 3) := by
  constructor
  · induction hosts with
    | nil => rfl
    | cons a t ih => simpa [system_prep] using ih
  · intro e he
    simp only [system_prep, List.mem_map] at he
    obtain ⟨h, _, rfl⟩ := he
    exact prepHost_spec (ok h)

/-- Witness for C8: two hosts, the first always failing, the second
succeeding on its second attempt; both appear in the result. -/
theorem system_prep_attempts_all_hosts_witness :
    (system_prep (fun h i => decide (h = "b" ∧ i = 1)) ["a", "b"]).map
      Prod.fst = ["a", "b"] ∧
    1 ≤ (("a", prepHost ((fun h i => decide (h = "b" ∧ i = 1)) "a")).2).attempts := by
  refine ⟨(system_prep_attempts_all_hosts _ ["a", "b"]).1, ?_⟩
  exact ((system_prep_attempts_all_hosts (fun h i => decide (h = "b" ∧ i = 1))
    ["a", "b"]).2 _ (by simp [system_prep])).1

/-! ### C9 — catalog memoization -/

/-- Claim C9 as stated is false when the fetched listing populates an empty
mapping: with a listing whose only flavor is non-linux, two lookups for the
same (region, name) issue two underlying full-listing fetches, because
`len(self._flavors) == 0` remains true after the first fetch. -/
theorem flavor_refetch_on_empty_population :
    (runFlavorLookups [⟨"SBG1", "hg-15", "f1", "windows"⟩]
      [("SBG1", "hg-15"), ("SBG1", "hg-15")] ⟨[], 0⟩).fetches = 2 ∧
    ¬ ((2 : Nat) ≤ 1) :=
  ⟨rfl, by decide⟩

/-- A populated (non-empty) backing mapping is never refetched: the
`flavors` getter is the identity on such a state. -/
theorem flavorsGet_stable (listing : List Flavor) (st : CatalogState)
    (h : st.flavors.length ≠ 0) : flavorsGet listing st = (st.flavors, st) := by
  simp [flavorsGet, h]

/-- Any sequence of lookups leaves a state with a non-empty backing mapping
untouched. -/
theorem runFlavorLookups_stable (listing : List Flavor) :
    ∀ (qs : List (String × String)) (st : CatalogState),
      st.flavors.length ≠ 0 → runFlavorLookups listing qs st = st
  | [], _, _ => rfl
  | q :: qs, st, h => by
    have hs : (flavor_id listing st q.1 q.2).2 = st := by
      simp [flavor_id, flavorsGet, h]
    simp only [runFlavorLookups, hs]
    exact runFlavorLookups_stable listing qs st h

/-- Claim C9 (amended): provided the fetched listing populates a non-empty
mapping, any sequence of flavor lookups from a fresh catalog state issues
at most one underlying full-listing fetch; and a state whose backing
mapping is non-empty is never refetched by the getter. -/
theorem flavor_fetch_memoized (listing : List Flavor)
    (qs : List (String × String))
    (hne : (populateFlavors listing).length ≠ 0) :
    (runFlavorLookups listing qs ⟨[], 0⟩).fetches ≤ 1 ∧
    ∀ st : CatalogState, st.flavors.length ≠ 0 →
      (flavorsGet listing st).2 = st := by
  refine ⟨?_, fun st h => by simp [flavorsGet, h]⟩
  match qs with
  | [] => simp [runFlavorLookups]
  | q :: qs =>
    have hstep : (flavor_id listing ⟨[], 0⟩ q.1 q.2).2 =
        ⟨populateFlavors listing, 1⟩ := by
      simp [flavor_id, flavorsGet]
    simp only [runFlavorLookups, hstep,
      runFlavorLookups_stable listing qs ⟨populateFlavors listing, 1⟩ hne]
    exact Nat.le_refl 1

/-- Witness for C9: a listing with one linux flavor, two identical lookups,
one fetch. -/
theorem flavor_fetch_memoized_witness :
    (runFlavorLookups [⟨"SBG1", "hg-15", "f1", "linux"⟩]
      [("SBG1", "hg-15"), ("SBG1", "hg-15")] ⟨[], 0⟩).fetches ≤ 1 :=
  (flavor_fetch_memoized [⟨"SBG1", "hg-15", "f1", "linux"⟩]
    [("SBG1", "hg-15"), ("SBG1", "hg-15")] (by decide)).1

/-! ### C1 / C2 / C3 — the provisioning loop and error recovery -/

/-- Appending one element to the processed prefix and consing one onto the
rest change the total length equally. -/
theorem length_append_singleton {α : Type} (pr : List α) (x y : α)
    (rest : List α) :
    (pr ++ [x]).length + rest.length = pr.length + (y :: rest).length := by
  simp only [List.length_append, List.length_cons, List.length_nil]
  omega

/-- A successful recovery preserves the working set's size: it erases the
one matching entry and appends the one instance of a single-instance bulk
create. -/
theorem recover_ok_length (env : ProvEnv) (c : Nat)
    (hbulk1 : (env.bulk c 1).length = 1) (l : List Inst) (iid : Nat)
    (hmem : ∃ d ∈ l, d.id = iid) (l2 : List Inst)
    (h : recover_instance_error env c l iid = Except.ok l2) :
    l2.length = l.length := by
  obtain ⟨d, hd, hdid⟩ := hmem
  have hpa : (fun x : Inst => x.id == iid) d = true := by simp [hdid]
  have hlen := List.length_eraseP_add_one (p := fun x : Inst => x.id == iid) hd hpa
  by_cases hdel : cleanup_instance env iid = true
  · simp only [recover_instance_error, hdel, if_true, Except.ok.injEq] at h
    rw [← h]
    simp only [List.length_append, create_instance, List.length_map, hbulk1]
    omega
  · simp [recover_instance_error, hdel] at h

/-- A completed polling pass preserves the working set's size, whatever the
statuses observed: healthy entries are kept (possibly gaining an ip) and a
recovery replaces 1-for-1. -/
theorem passAux_ok_length (env : ProvEnv) (p : Nat)
    (hbulk1 : ∀ c, (env.bulk c 1).length = 1) :
    ∀ (rest processed : List Inst) (wait : Bool) (c : Nat)
      (l2 : List Inst) (w2 : Bool) (c2 : Nat),
      passAux env p c processed rest wait = Except.ok (l2, w2, c2) →
      l2.length = processed.length + rest.length
  | [], processed, wait, c, l2, w2, c2, h => by
    simp only [passAux, Except.ok.injEq, Prod.mk.injEq] at h
    simp [← h.1]
  | inst :: rest, processed, wait, c, l2, w2, c2, h => by
    simp only [passAux] at h
    by_cases hip : inst.ip.isSome
    · rw [if_pos hip] at h
      have ih := passAux_ok_length env p hbulk1 rest (processed ++ [inst])
        wait c l2 w2 c2 h
      exact ih.trans (length_append_singleton processed inst inst rest)
    · rw [if_neg hip] at h
      rcases hst : env.status p inst.id with _ | ⟨ip, sshOk⟩ | _ | s
      all_goals rw [hst] at h
      · have ih := passAux_ok_length env p hbulk1 rest (processed ++ [inst])
          true c l2 w2 c2 h
        exact ih.trans (length_append_singleton processed inst inst rest)
      · cases sshOk
        · have ih := passAux_ok_length env p hbulk1 rest (processed ++ [inst])
            true c l2 w2 c2 h
          exact ih.trans (length_append_singleton processed inst inst rest)
        · have h2 : passAux env p c (processed ++ [⟨inst.id, some ip⟩]) rest
              wait = Except.ok (l2, w2, c2) := h
          have ih := passAux_ok_length env p hbulk1 rest
            (processed ++ [⟨inst.id, some ip⟩]) wait c l2 w2 c2 h2
          exact ih.trans
            (length_append_singleton processed ⟨inst.id, some ip⟩ inst rest)
      · rcases hrec : recover_instance_error env c (processed ++ inst :: rest)
            inst.id with crashed | lnew
        · rw [hrec] at h
          simp at h
        · rw [hrec] at h
          simp only [Except.ok.injEq, Prod.mk.injEq] at h
          obtain ⟨h1, -, -⟩ := h
          have hlen := recover_ok_length env c (hbulk1 c)
            (processed ++ inst :: rest) inst.id ⟨inst, by simp, rfl⟩ lnew hrec
          rw [← h1, hlen]
          simp [List.length_append]
      · have ih := passAux_ok_length env p hbulk1 rest (processed ++ [inst])
          wait c l2 w2 c2 h
        exact ih.trans (length_append_singleton processed inst inst rest)

/-- Size preservation through the whole polling loop, for every run that is
not aborted by a recovery deletion failure: every state of the trace and
the final state keep the initial size. -/
theorem pollLoop_ok_length (env : ProvEnv)
    (hbulk1 : ∀ c, (env.bulk c 1).length = 1) :
    ∀ (fuel p c : Nat) (l : List Inst),
      (pollLoop env p c l fuel).ok = true →
      (∀ s ∈ (pollLoop env p c l fuel).trace, s.length = l.length) ∧
      (pollLoop env p c l fuel).final.length = l.length
  | 0, p, c, l, _ => by
    constructor
    · intro s hs
      simp [pollLoop] at hs
    · simp [pollLoop]
  | fuel + 1, p, c, l, hok => by
    rcases hpass : passAux env p c [] l false with crashed | ⟨l1, wait, c1⟩
    · rw [pollLoop] at hok
      rw [hpass] at hok
      simp at hok
    · have hl1 : l1.length = l.length := by
        have := passAux_ok_length env p hbulk1 l [] false c l1 wait c1 hpass
        simpa using this
      by_cases hw : wait = true
      · subst hw
        have hok2 : (pollLoop env (p + 1) c1 l1 fuel).ok = true := by
          rw [pollLoop, hpass] at hok
          simpa using hok
        have ih := pollLoop_ok_length env hbulk1 fuel (p + 1) c1 l1 hok2
        constructor
        · intro s hs
          rw [pollLoop, hpass] at hs
          simp only at hs
          rcases List.mem_cons.mp hs with rfl | hmem
          · exact hl1
          · exact (ih.1 s hmem).trans hl1
        · rw [pollLoop, hpass]
          simpa using ih.2.trans hl1
      · have hw2 : wait = false := by simpa using hw
        subst hw2
        constructor
        · intro s hs
          have hs2 : s = l1 := by
            rw [pollLoop, hpass] at hs
            simpa using hs
          rw [hs2]
          exact hl1
        · rw [pollLoop, hpass]
          simpa using hl1

/-- Claim C1 as stated is false on the abort path: when an instance errors
and the recovery deletion fails, the run aborts with the errored entry
already removed and no replacement added — the working set observed by the
exit-time cleanup has N - 1 = 1 entries, not the requested N = 2. -/
theorem working_set_short_after_failed_recovery :
    (create_instances envDelFail 1 1 3).2.ok = false ∧
    (create_instances envDelFail 1 1 3).2.final.length = 1 ∧
    (1 : Nat) ≠ 1 + 1 :=
  ⟨rfl, rfl, by decide⟩

/-- Claim C1 (amended): requesting masters + agents instances yields a
working set of exactly that size, and on every run in which no recovery
deletion failure aborts the loop — i.e. every completed replacement
substitutes 1-for-1 — every state after each pass and the final state keep
exactly that size, for any number of error-triggered replacements. -/
theorem working_set_size_invariant (env : ProvEnv)
    (masters agents fuel : Nat)
    (hbulk : ∀ c n, (env.bulk c n).length = n) :
    (create_instances env masters agents fuel).1.length = masters + agents ∧
    ((create_instances env masters agents fuel).2.ok = true →
      (∀ s ∈ (create_instances env masters agents fuel).2.trace,
        s.length = masters + agents) ∧
      (create_instances env masters agents fuel).2.final.length =
        masters + agents) := by
  simp only [create_instances]
  have hinit : (create_instance env 0 (masters + agents)).length =
      masters + agents := by
    simp [create_instance, hbulk]
  refine ⟨hinit, fun hok => ?_⟩
  have h := pollLoop_ok_length env (fun c => hbulk c 1) fuel 0 1
    (create_instance env 0 (masters + agents)) hok
  exact ⟨fun s hs => (h.1 s hs).trans hinit, h.2.trans hinit⟩

/-- Witness for C1: a healthy 2-instance run keeps size 2 from the bulk
create to the final working set. -/
theorem working_set_size_invariant_witness :
    (create_instances envHealthy 1 1 3).1.length = 1 + 1 ∧
    (create_instances envHealthy 1 1 3).2.final.length = 1 + 1 := by
  have h := working_set_size_invariant envHealthy 1 1 3
    (fun c n => by simp [envHealthy])
  exact ⟨h.1, (h.2 (by rfl)).2⟩

/-- A pass entered with the wait flag already set never returns it
cleared. -/
theorem passAux_wait_mono (env : ProvEnv) (p : Nat) :
    ∀ (rest processed : List Inst) (c : Nat) (l2 : List Inst) (w2 : Bool)
      (c2 : Nat),
      passAux env p c processed rest true = Except.ok (l2, w2, c2) →
      w2 = true
  | [], processed, c, l2, w2, c2, h => by
    simp only [passAux, Except.ok.injEq, Prod.mk.injEq] at h
    exact h.2.1.symm
  | inst :: rest, processed, c, l2, w2, c2, h => by
    simp only [passAux] at h
    by_cases hip : inst.ip.isSome
    · rw [if_pos hip] at h
      exact passAux_wait_mono env p rest (processed ++ [inst]) c l2 w2 c2 h
    · rw [if_neg hip] at h
      rcases hst : env.status p inst.id with _ | ⟨ip, sshOk⟩ | _ | s
      all_goals rw [hst] at h
      · exact passAux_wait_mono env p rest (processed ++ [inst]) c l2 w2 c2 h
      · cases sshOk
        · exact passAux_wait_mono env p rest (processed ++ [inst]) c l2 w2 c2 h
        · have h2 : passAux env p c (processed ++ [⟨inst.id, some ip⟩]) rest
              true = Except.ok (l2, w2, c2) := h
          exact passAux_wait_mono env p rest
            (processed ++ [⟨inst.id, some ip⟩]) c l2 w2 c2 h2
      · rcases hrec : recover_instance_error env c (processed ++ inst :: rest)
            inst.id with crashed | lnew
        · rw [hrec] at h
          simp at h
        · rw [hrec] at h
          simp only [Except.ok.injEq, Prod.mk.injEq] at h
          exact h.2.1.symm
      · exact passAux_wait_mono env p rest (processed ++ [inst]) c l2 w2 c2 h

/-- When every status the provider reports is recognized (never the `else`
branch), a pass that completes with the wait flag still clear has given
every entry an ip: BUILD, unreachable-ssh ACTIVE and ERROR all set the
flag. -/
theorem passAux_false_all_ready (env : ProvEnv) (p : Nat)
    (hother : ∀ q i, statusIsOther (env.status q i) = false) :
    ∀ (rest processed : List Inst) (c : Nat) (l2 : List Inst) (c2 : Nat),
      (∀ d ∈ processed, d.ip.isSome = true) →
      passAux env p c processed rest false = Except.ok (l2, false, c2) →
      ∀ d ∈ l2, d.ip.isSome = true
  | [], processed, c, l2, c2, hproc, h => by
    simp only [passAux, Except.ok.injEq, Prod.mk.injEq] at h
    rw [← h.1]
    exact hproc
  | inst :: rest, processed, c, l2, c2, hproc, h => by
    simp only [passAux] at h
    by_cases hip : inst.ip.isSome
    · rw [if_pos hip] at h
      refine passAux_false_all_ready env p hother rest (processed ++ [inst])
        c l2 c2 (fun d hd => ?_) h
      rcases List.mem_append.mp hd with hd1 | hd1
      · exact hproc d hd1
      · rw [List.mem_singleton.mp hd1]
        exact hip
    · rw [if_neg hip] at h
      rcases hst : env.status p inst.id with _ | ⟨ip, sshOk⟩ | _ | s
      all_goals rw [hst] at h
      · exact absurd (passAux_wait_mono env p rest (processed ++ [inst])
          c l2 false c2 h) (by decide)
      · cases sshOk
        · exact absurd (passAux_wait_mono env p rest (processed ++ [inst])
            c l2 false c2 h) (by decide)
        · have h2 : passAux env p c (processed ++ [⟨inst.id, some ip⟩]) rest
              false = Except.ok (l2, false, c2) := h
          refine passAux_false_all_ready env p hother rest
            (processed ++ [⟨inst.id, some ip⟩]) c l2 c2 (fun d hd => ?_) h2
          rcases List.mem_append.mp hd with hd1 | hd1
          · exact hproc d hd1
          · rw [List.mem_singleton.mp hd1]
            rfl
      · rcases hrec : recover_instance_error env c (processed ++ inst :: rest)
            inst.id with crashed | lnew
        · rw [hrec] at h
          simp at h
        · rw [hrec] at h
          simp only [Except.ok.injEq, Prod.mk.injEq] at h
          exact absurd h.2.1.symm (by decide)
      · have := hother p inst.id
        rw [hst] at this
        simp [statusIsOther] at this

/-- Normal loop termination (a pass leaving the wait flag clear) implies
every working-set entry has an ip, provided statuses stay within the
recognized vocabulary. -/
theorem pollLoop_finished_all_ready (env : ProvEnv)
    (hother : ∀ q i, statusIsOther (env.status q i) = false) :
    ∀ (fuel p c : Nat) (l : List Inst),
      (pollLoop env p c l fuel).finished = true →
      ∀ d ∈ (pollLoop env p c l fuel).final, d.ip.isSome = true
  | 0, p, c, l, hfin => by
    simp [pollLoop] at hfin
  | fuel + 1, p, c, l, hfin => by
    rcases hpass : passAux env p c [] l false with crashed | ⟨l1, wait, c1⟩
    · rw [pollLoop, hpass] at hfin
      simp at hfin
    · by_cases hw : wait = true
      · subst hw
        have hfin2 : (pollLoop env (p + 1) c1 l1 fuel).finished = true := by
          rw [pollLoop, hpass] at hfin
          simpa using hfin
        intro d hd
        rw [pollLoop, hpass] at hd
        simp only at hd
        exact pollLoop_finished_all_ready env hother fuel (p + 1) c1 l1
          hfin2 d hd
      · have hw2 : wait = false := by simpa using hw
        subst hw2
        intro d hd
        have hd2 : d ∈ l1 := by
          rw [pollLoop, hpass] at hd
          simpa using hd
        exact passAux_false_all_ready env p hother l [] c l1 c1
          (by intro x hx; simp at hx) hpass d hd2

/-- Claim C2 as stated is false: a provider status outside BUILD, ACTIVE,
ERROR does not set the wait flag — it is only logged — so with one
instance whose status is always the unrecognized "PAUSED", the loop's
first pass leaves wait clear and the loop exits while that instance still
has no ip. -/
theorem poll_exits_with_unready_on_unrecognized_status :
    (create_instances envAllOther 1 0 5).2.finished = true ∧
    (create_instances envAllOther 1 0 5).2.final = [⟨0, none⟩] :=
  ⟨rfl, rfl⟩

/-- Claim C2 (amended): the loop exits normally only when a full pass
leaves the wait flag clear; BUILD, unreachable ACTIVE and ERROR set the
flag, but an unrecognized status does not, so exit-implies-Ready holds
only when every observed status is one of BUILD, ACTIVE, ERROR — in that
case a finished loop leaves every working-set instance with an ip. -/
theorem poll_exit_ready_when_statuses_recognized (env : ProvEnv)
    (p c fuel : Nat) (l : List Inst)
    (hother : ∀ q i, statusIsOther (env.status q i) = false)
    (hfin : (pollLoop env p c l fuel).finished = true) :
    ((pollLoop env p c l fuel).final.all (fun d => d.ip.isSome)) = true := by
  rw [List.all_eq_true]
  intro d hd
  exact pollLoop_finished_all_ready env hother fuel p c l hfin d hd

/-- Witness for C2: a healthy two-instance run finishes with every entry
holding an ip. -/
theorem poll_exit_ready_when_statuses_recognized_witness :
    ((pollLoop envHealthy 0 1 [⟨0, none⟩, ⟨1, none⟩] 3).final.all
      (fun d => d.ip.isSome)) = true :=
  poll_exit_ready_when_statuses_recognized envHealthy 0 1 3
    [⟨0, none⟩, ⟨1, none⟩]
    (fun q i => by
      by_cases hq : q = 0 <;> simp [envHealthy, statusIsOther, hq])
    (by rfl)

/-- After erasing the first entry with the errored id from a working set
whose ids are pairwise distinct, no entry with that id remains. -/
theorem eraseP_id_not_mem :
    ∀ (l : List Inst) (iid : Nat), (l.map Inst.id).Nodup →
      ∀ d ∈ l.eraseP (fun x => x.id == iid), d.id ≠ iid
  | [], iid, _, d, hd => by simp at hd
  | a :: l, iid, hnd, d, hd => by
    have hnd2 : (Inst.id a :: l.map Inst.id).Nodup := by simpa using hnd
    have hcons := List.nodup_cons.mp hnd2
    by_cases ha : a.id = iid
    · rw [List.eraseP_cons_of_pos (l := l) (by simp [ha])] at hd
      intro hdid
      exact hcons.1 (by
        rw [ha, ← hdid]
        exact List.mem_map_of_mem Inst.id hd)
    · rw [List.eraseP_cons_of_neg (l := l) (by simp [ha])] at hd
      rcases List.mem_cons.mp hd with rfl | hd2
      · exact ha
      · exact eraseP_id_not_mem l iid hcons.2 d hd2

/-- Claim C3 as stated is false: a recovery deletion failure is fatal — the
exception propagates and recovery aborts before creating a replacement (so
the run itself aborts), rather than being merely logged. -/
theorem recover_aborts_on_delete_failure :
    recover_instance_error envDelFail 1 [⟨7, none⟩, ⟨8, none⟩] 7 =
      Except.error [⟨8, none⟩] ∧
    (create_instances envDelFail 1 1 3).2.ok = false :=
  ⟨rfl, rfl⟩

/-- Claim C3 (amended): on observing ERROR, recovery first removes the
errored entry from the working set; then deletion is attempted. If the
deletion succeeds, exactly one freshly created replacement with a new
provider id is appended and the set keeps its size; if the deletion fails,
the exception propagates — recovery aborts with no replacement created. In
both cases the errored instance is no longer in the working set. -/
theorem recover_error_spec (env : ProvEnv) (c : Nat) (l : List Inst)
    (iid : Nat) (hmem : ∃ d ∈ l, d.id = iid)
    (hnd : (l.map Inst.id).Nodup)
    (hbulk1 : (env.bulk c 1).length = 1)
    (hfresh : ∀ j ∈ env.bulk c 1, j ≠ iid) :
    (cleanup_instance env iid = true →
      recover_instance_error env c l iid =
        Except.ok (l.eraseP (fun d => d.id == iid) ++ create_instance env c 1) ∧
      ∀ l2, recover_instance_error env c l iid = Except.ok l2 →
        l2.length = l.length ∧ ∀ d ∈ l2, d.id ≠ iid) ∧
    (cleanup_instance env iid = false →
      recover_instance_error env c l iid =
        Except.error (l.eraseP (fun d => d.id == iid)) ∧
      ∀ d ∈ l.eraseP (fun d => d.id == iid), d.id ≠ iid) := by
  constructor
  · intro hdel
    have heq : recover_instance_error env c l iid =
        Except.ok (l.eraseP (fun d => d.id == iid) ++ create_instance env c 1) := by
      simp [recover_instance_error, hdel]
    refine ⟨heq, fun l2 h2 => ?_⟩
    have hl2 : l2 = l.eraseP (fun d => d.id == iid) ++ create_instance env c 1 := by
      rw [heq] at h2
      exact (Except.ok.inj h2).symm
    constructor
    · exact recover_ok_length env c hbulk1 l iid hmem l2 h2
    · intro d hd
      rw [hl2] at hd
      rcases List.mem_append.mp hd with hd1 | hd1
      · exact eraseP_id_not_mem l iid hnd d hd1
      · simp only [create_instance, List.mem_map] at hd1
        obtain ⟨j, hj, rfl⟩ := hd1
        exact hfresh j hj
  · intro hdel
    have hdel2 : ¬ cleanup_instance env iid = true := by simp [hdel]
    refine ⟨by simp [recover_instance_error, hdel2], ?_⟩
    exact eraseP_id_not_mem l iid hnd

/-- Witness for C3: a successful recovery on a concrete two-entry working
set removes id 7 and appends the single freshly created instance. -/
theorem recover_error_spec_witness :
    recover_instance_error envHealthy 1 [⟨7, none⟩, ⟨8, none⟩] 7 =
      Except.ok (([⟨7, none⟩, ⟨8, none⟩] : List Inst).eraseP
        (fun d => d.id == 7) ++ create_instance envHealthy 1 1) := by
  have h := recover_error_spec envHealthy 1 [⟨7, none⟩, ⟨8, none⟩] 7
    ⟨⟨7, none⟩, by simp, rfl⟩ (by simp) (by rfl) (by decide)
  exact (h.1 rfl).1

end DcosOvh
